import Mathlib

/-!
Shallow embedding of the sms-api modem and SMS subsystem.

Time is modelled in whole seconds as `Nat` (a `tokio::time::Instant` becomes
the number of seconds since process start, and `elapsed` becomes subtraction).
Bytes are modelled as `Nat`, Rust `String`s as Lean `String`s.
-/

/-- SMS status enum (`SMSStatus` in src/sms/types.rs). -/
inductive SMSStatus
  | sent
  | delivered
  | received
  | temporaryFailure
  | permanentFailure
deriving DecidableEq, Repr

/-- Integer encoding of a status (`impl From<&SMSStatus> for u8` in src/sms/types.rs). -/
def SMSStatus.toU8 : SMSStatus → Nat
  | .sent => 0
  | .delivered => 1
  | .received => 2
  | .temporaryFailure => 3
  | .permanentFailure => 4

/-- Model of `pdu_rs::pdu::MessageStatus` (external crate seam).  Only the three
classification predicates that src/sms uses are kept; a value of this structure
stands for a delivery-report TP-Status octet already classified by the library. -/
structure MessageStatus where
  is_success : Bool
  is_temporary_error : Bool
  is_permanent_error : Bool
deriving DecidableEq, Repr

/-- Mapping of a delivery-report status onto an `SMSStatus`
(`impl From<MessageStatus> for SMSStatus` in src/sms/types.rs lines 186-196). -/
def SMSStatus.fromMessageStatus (s : MessageStatus) : SMSStatus :=
  if s.is_success then .received
  else if s.is_temporary_error then .temporaryFailure
  else .permanentFailure

/-- One component of a user-data header (`pdu_rs` UDH component seam): an id octet
and the component payload bytes. -/
structure UdhComponent where
  id : Nat
  data : List Nat
deriving DecidableEq, Repr

/-- User data header: the list of its components. -/
structure UserDataHeader where
  components : List UdhComponent
deriving DecidableEq, Repr

/-- Incoming SMS after PDU decode (`SMSIncomingMessage` in src/sms/types.rs). -/
structure SMSIncomingMessage where
  phone_number : String
  user_data_header : Option UserDataHeader
  content : String
deriving DecidableEq, Repr

/-- In-memory SMS message (`SMSMessage` in src/sms/types.rs). -/
structure SMSMessage where
  message_id : Option Nat
  phone_number : String
  message_content : String
  message_reference : Option Nat
  is_outgoing : Bool
  status : SMSStatus
  created_at : Option Nat
  completed_at : Option Nat
deriving DecidableEq, Repr

/-- Conversion of an incoming message into a stored message
(`impl From<SMSIncomingMessage> for SMSMessage` in src/sms/types.rs). -/
def SMSMessage.fromIncoming (incoming : SMSIncomingMessage) : SMSMessage where
  message_id := none
  phone_number := incoming.phone_number
  message_content := incoming.content
  message_reference := none
  is_outgoing := false
  status := .received
  created_at := none
  completed_at := none

/-- Decoded concatenation header (`SMSMultipartHeader` in src/sms/types.rs). -/
structure SMSMultipartHeader where
  message_reference : Nat
  total : Nat
  index : Nat
deriving DecidableEq, Repr

/-- Extraction of the concatenation header from the UDH component with id `0x00`
(`SMSIncomingMessage::decode_multipart_data` in src/sms/types.rs). -/
def SMSIncomingMessage.decode_multipart_data (m : SMSIncomingMessage) :
    Option (Except String SMSMultipartHeader) :=
  match m.user_data_header with
  | none => none
  | some udh =>
    match udh.components.find? (fun c => c.id == 0) with
    | none => none
    | some c =>
      match c.data with
      | [a, b, i] => some (.ok ⟨a, b, i⟩)
      | _ => some (.error "Invalid multipart header length!")

/-- A multipart reassembly group (`SMSMultipartMessages` in src/sms/types.rs). -/
structure SMSMultipartMessages where
  total_size : Nat
  last_updated : Nat
  first_message : Option SMSIncomingMessage
  text_len : Nat
  text_parts : List (Option String)
  received_count : Nat
deriving DecidableEq, Repr

/-- Fresh group for a given total (`SMSMultipartMessages::with_capacity`). -/
def SMSMultipartMessages.with_capacity (now total_size : Nat) : SMSMultipartMessages where
  total_size := total_size
  last_updated := now
  first_message := none
  text_len := 0
  text_parts := List.replicate total_size none
  received_count := 0

/-- Adding a part to a group (`SMSMultipartMessages::add_message` in
src/sms/types.rs lines 77-93).  The 1-based index is made 0-based with a
saturating subtraction; an occupied or out-of-range slot is left unchanged.
Returns the updated group and the fullness flag `received_count >= total_size`. -/
def SMSMultipartMessages.add_message (g : SMSMultipartMessages) (now : Nat)
    (message : SMSIncomingMessage) (index : Nat) : SMSMultipartMessages × Bool :=
  let g := { g with last_updated := now }
  let g := if g.first_message.isNone then { g with first_message := some message } else g
  let idx := index - 1
  let g :=
    if g.text_parts.get? idx = some none then
      { g with
        text_len := g.text_len + message.content.length
        text_parts := g.text_parts.set idx (some message.content)
        received_count := g.received_count + 1 }
    else g
  (g, decide (g.received_count ≥ g.total_size))

/-- Compiling a full group into one message (`SMSMultipartMessages::compile` in
src/sms/types.rs lines 95-112): the slot texts are concatenated in slot order,
empty slots contributing nothing. -/
def SMSMultipartMessages.compile (g : SMSMultipartMessages) : Except String SMSMessage :=
  match g.first_message with
  | none => .error "Missing required first message to convert into SMSMessage!"
  | some first =>
    let content := g.text_parts.foldl
      (fun acc o => match o with | some t => acc ++ t | none => acc) ""
    .ok { SMSMessage.fromIncoming first with message_content := content }

/-- Stall test (`SMSMultipartMessages::is_stalled` in src/sms/types.rs lines
114-117): the elapsed time since the last update exceeds 30 minutes. -/
def SMSMultipartMessages.is_stalled (now : Nat) (g : SMSMultipartMessages) : Bool :=
  decide (now - g.last_updated > 30 * 60)

/-- The reassembler map keyed by multipart reference, as an association list. -/
def MultipartMap : Type := List (Nat × SMSMultipartMessages)

/-- Lookup of a group by reference. -/
def lookupGroup (m : MultipartMap) (r : Nat) : Option SMSMultipartMessages :=
  (m.find? (fun p => p.1 == r)).map (·.2)

/-- Insert-or-replace of a group by reference (the effect of
`HashMap::entry(..).or_insert_with(..)` followed by in-place mutation). -/
def insertGroup : MultipartMap → Nat → SMSMultipartMessages → MultipartMap
  | [], r, g => [(r, g)]
  | p :: rest, r, g => if p.1 = r then (r, g) :: rest else p :: insertGroup rest r g

/-- Scavenger pass (`SMSReceiver::cleanup_stalled_multipart` in src/sms/mod.rs
lines 198-210).  The source calls `HashMap::retain` with a closure returning
`messages.is_stalled()`; `retain` keeps exactly the entries for which the
closure returns true, so the stalled groups are the ones kept. -/
def cleanup_stalled_multipart (now : Nat) (m : MultipartMap) : MultipartMap :=
  m.filter (fun p => SMSMultipartMessages.is_stalled now p.2)

/-- One step of the reassembler (`SMSReceiver::get_incoming_sms_message` in
src/sms/mod.rs lines 212-232): a message without a concat header passes
through; otherwise the part is added to its group, and if the group reports
full the compiled message is yielded.  Returns the updated map together with
`none` (nothing to store) or the yielded result. -/
def get_incoming_sms_message (now : Nat) (m : MultipartMap) (incoming : SMSIncomingMessage) :
    MultipartMap × Option (Except String SMSMessage) :=
  match incoming.decode_multipart_data with
  | none => (m, some (.ok (SMSMessage.fromIncoming incoming)))
  | some (.error e) => (m, some (.error e))
  | some (.ok header) =>
    let g := (lookupGroup m header.message_reference).getD
      (SMSMultipartMessages.with_capacity now header.total)
    let step := g.add_message now incoming header.index
    let m1 := insertGroup m header.message_reference step.1
    if step.2 then (m1, some step.1.compile) else (m1, none)

/-- Driver folding a list of incoming messages through the reassembler,
collecting every yielded result in order. -/
def run_incoming (now : Nat) : List SMSIncomingMessage → MultipartMap →
    MultipartMap × List (Except String SMSMessage)
  | [], m => (m, [])
  | msg :: rest, m =>
    let step := get_incoming_sms_message now m msg
    let tail := run_incoming now rest step.1
    (tail.1, (step.2.elim [] (fun x => [x])) ++ tail.2)

/-- Rust `str::starts_with` on strings, computed on the character lists (for a
valid UTF-8 string a byte-level prefix is exactly a character-level prefix). -/
def rustStartsWith (s pre : String) : Bool := pre.data.isPrefixOf s.data

/-- Whitespace characters removed by Rust `str::trim` (`char::is_whitespace`);
the ASCII part of the Unicode set, which is all the modem traffic contains. -/
def rustIsWhitespaceChar (c : Char) : Bool :=
  c == ' ' || c == '\t' || c == '\n' || c == '\r' ||
    c == Char.ofNat 11 || c == Char.ofNat 12

/-- Rust `str::trim`: leading and trailing whitespace characters removed. -/
def rustTrim (s : String) : String :=
  ⟨((s.data.dropWhile rustIsWhitespaceChar).reverse.dropWhile rustIsWhitespaceChar).reverse⟩

/-- Sub-state of a running command (`CommandState` in src/modem/commands.rs). -/
inductive CommandState
  | waitingForOk
  | waitingForPrompt
  | waitingForData
deriving DecidableEq, Repr

/-- Completion test for a response line (`CommandState::is_complete` in
src/modem/commands.rs lines 28-41). -/
def CommandState.is_complete : CommandState → String → Bool
  | .waitingForOk, content =>
    content == "OK" || content == "ERROR" ||
      rustStartsWith content "+CME ERROR:" || rustStartsWith content "+CMS ERROR:"
  | .waitingForPrompt, _ => false
  | .waitingForData, content =>
    rustStartsWith content "+CMGS:" || content == "OK" || content == "ERROR"

/-- Outbound command with its one-shot result sink (`OutgoingCommand` in
src/modem/commands.rs).  The oneshot sender is modelled by `Option Unit`:
`some ()` while unused, `none` after it has been taken by `respond`. -/
structure OutgoingCommand where
  sequence : Nat
  response_tx : Option Unit
deriving DecidableEq, Repr

/-- A freshly created command (`OutgoingCommand::new`): the sink is unused. -/
def OutgoingCommand.new (sequence : Nat) : OutgoingCommand :=
  { sequence := sequence, response_tx := some () }

/-- One `respond` call (`OutgoingCommand::respond` in src/modem/commands.rs lines
66-75): the sender is taken and signalled on the first call; a later call finds
the slot empty, logs and drops the response.  The boolean reports whether the
sink was signalled by this call. -/
def OutgoingCommand.respond (cmd : OutgoingCommand) : OutgoingCommand × Bool :=
  match cmd.response_tx with
  | some _ => ({ cmd with response_tx := none }, true)
  | none => (cmd, false)

/-- Iterated `respond` calls on the same command, counting how many of them
actually signalled the sink. -/
def respondCalls : Nat → OutgoingCommand → OutgoingCommand × Nat
  | 0, c => (c, 0)
  | n + 1, c =>
    let first := c.respond
    let rest := respondCalls n first.1
    (rest.1, (if first.2 then 1 else 0) + rest.2)

/-- Kind of an unsolicited notification (`UnsolicitedMessageType` in
src/modem/types.rs). -/
inductive UnsolicitedMessageType
  | incomingSMS
  | deliveryReport
  | networkStatusChange
  | shuttingDown
deriving DecidableEq, Repr

/-- An in-flight command execution (`CommandExecution` in
src/modem/state_machine.rs): only the fields the timeout logic reads are kept,
with the deadline as an absolute second count. -/
structure CommandExecution where
  sequence : Nat
  timeout_at : Nat
deriving DecidableEq, Repr

/-- Deadline test (`CommandExecution::is_timed_out`): the current instant has
reached the deadline. -/
def CommandExecution.is_timed_out (e : CommandExecution) (now : Nat) : Bool :=
  decide (now ≥ e.timeout_at)

/-- State of the modem state machine (`StateMachineState` in
src/modem/state_machine.rs lines 45-54). -/
inductive StateMachineState
  | idle
  | command (execution : CommandExecution)
  | unsolicitedMessage (message_type : UnsolicitedMessageType) (header : String)
      (interrupted_command : Option CommandExecution)
deriving DecidableEq, Repr

/-- Timeout tick (`ModemStateMachine::handle_command_timeout` in
src/modem/state_machine.rs lines 75-97).  Only the `Command` state is examined:
any other state, including `UnsolicitedMessage` with a suspended command,
returns immediately.  The result pairs the new state with the error message
signalled to the command sink, when any. -/
def handle_command_timeout (now : Nat) : StateMachineState → StateMachineState × Option String
  | .command e =>
    if e.is_timed_out now then (.idle, some "Command timed out!")
    else (.command e, none)
  | s => (s, none)

/-- A persisted `messages` row (table `messages` in src/schema.sql; the content
is stored encrypted in the source, kept as plaintext here since encryption is
out of scope for the claims). -/
structure StoredMessage where
  message_id : Nat
  phone_number : String
  message_content : String
  message_reference : Option Nat
  is_outgoing : Bool
  status : SMSStatus
  completed_at : Option Nat
deriving DecidableEq, Repr

/-- A persisted `delivery_reports` row. -/
structure StoredReport where
  message_id : Nat
  status : Nat
  is_final : Bool
deriving DecidableEq, Repr

/-- A persisted `send_failures` row. -/
structure StoredSendFailure where
  message_id : Nat
  error_message : String
deriving DecidableEq, Repr

/-- The relational store (`SMSDatabase` in src/sms/database.rs) as three tables. -/
structure SMSDatabaseState where
  messages : List StoredMessage
  delivery_reports : List StoredReport
  send_failures : List StoredSendFailure
deriving DecidableEq, Repr

/-- The empty store. -/
def SMSDatabaseState.empty : SMSDatabaseState := ⟨[], [], []⟩

/-- Row id assignment on insert (`last_insert_rowid`): ids are 1-based and
increase with each inserted message. -/
def nextMessageId (db : SMSDatabaseState) : Nat := db.messages.length + 1

/-- Message insert (`SMSDatabase::insert_message` in src/sms/database.rs lines
64-85): the row gets a fresh id, and `completed_at` is set to the insert time
exactly when the `is_final` argument is true.  Returns the store and the id. -/
def insert_message (now : Nat) (db : SMSDatabaseState) (message : SMSMessage)
    (is_final : Bool) : SMSDatabaseState × Nat :=
  let id := nextMessageId db
  let row : StoredMessage :=
    { message_id := id
      phone_number := message.phone_number
      message_content := message.message_content
      message_reference := message.message_reference
      is_outgoing := message.is_outgoing
      status := message.status
      completed_at := if is_final then some now else none }
  ({ db with messages := db.messages ++ [row] }, id)

/-- Send-failure insert (`SMSDatabase::insert_send_failure` in
src/sms/database.rs lines 87-98). -/
def insert_send_failure (db : SMSDatabaseState) (message_id : Nat)
    (error_message : String) : SMSDatabaseState :=
  { db with send_failures := db.send_failures ++ [⟨message_id, error_message⟩] }

/-- Delivery-report insert (`SMSDatabase::insert_delivery_report`). -/
def insert_delivery_report (db : SMSDatabaseState) (message_id status : Nat)
    (is_final : Bool) : SMSDatabaseState :=
  { db with delivery_reports := db.delivery_reports ++ [⟨message_id, status, is_final⟩] }

/-- Correlation query (`SMSDatabase::get_delivery_report_target_message`):
the greatest `message_id` among open outgoing messages matching the phone
number and reference (`ORDER BY message_id DESC LIMIT 1`). -/
def get_delivery_report_target_message (db : SMSDatabaseState) (phone_number : String)
    (reference_id : Nat) : Option Nat :=
  ((db.messages.filter (fun m =>
      m.completed_at.isNone && m.is_outgoing && m.phone_number == phone_number &&
        m.message_reference == some reference_id)).map (·.message_id)).max?

/-- Status update (`SMSDatabase::update_message_status`): the row's status is
replaced, and `completed_at` is set to the update time exactly when the
`completed` argument is true (otherwise it is left unchanged). -/
def update_message_status (now : Nat) (db : SMSDatabaseState) (message_id : Nat)
    (status : SMSStatus) (completed : Bool) : SMSDatabaseState :=
  { db with
    messages := db.messages.map (fun m =>
      if m.message_id = message_id then
        { m with
          status := status
          completed_at := if completed then some now else m.completed_at }
      else m) }

/-- Incoming delivery report (`SMSIncomingDeliveryReport` in src/sms/types.rs). -/
structure SMSIncomingDeliveryReport where
  phone_number : String
  reference_id : Nat
  status : MessageStatus
deriving DecidableEq, Repr

/-- Typed event bus payloads used by the SMS paths (`Event` in src/events.rs). -/
inductive Event
  | incomingMessage (message : SMSMessage)
  | outgoingMessage (message : SMSMessage)
  | deliveryReport (message_id : Nat) (report : SMSIncomingDeliveryReport)
deriving DecidableEq, Repr

/-- Delivery-report handling (`SMSReceiver::handle_delivery_report` in
src/sms/mod.rs lines 171-196): locate the open target message, compute
`is_final` as success-or-permanent-error and the mapped status, broadcast the
event, insert the report row, update the message row.  Returns the store, the
events broadcast, and the target id. -/
def handle_delivery_report (now : Nat) (db : SMSDatabaseState)
    (report : SMSIncomingDeliveryReport) :
    Except String (SMSDatabaseState × List Event × Nat) :=
  match get_delivery_report_target_message db report.phone_number report.reference_id with
  | none => .error "Could not find target message for delivery report!"
  | some message_id =>
    let is_final := report.status.is_success || report.status.is_permanent_error
    let status := (SMSStatus.fromMessageStatus report.status).toU8
    let sms_status := SMSStatus.fromMessageStatus report.status
    let events := [Event.deliveryReport message_id report]
    let db := insert_delivery_report db message_id status is_final
    let db := update_message_status now db message_id sms_status is_final
    .ok (db, events, message_id)

/-- Modem responses relevant to the send path (`ModemResponse` in
src/modem/types.rs), with every non-send variant collapsed into `other`. -/
inductive ModemResponse
  | sendResult (reference_id : Nat)
  | error (message : String)
  | other
deriving DecidableEq, Repr

/-- Outgoing SMS request (`SMSOutgoingMessage` in src/sms/types.rs). -/
structure SMSOutgoingMessage where
  phone_number : String
  content : String
deriving DecidableEq, Repr

/-- Conversion into a stored message (`impl From<SMSOutgoingMessage> for
SMSMessage`): status starts as `Sent`. -/
def SMSMessage.fromOutgoing (outgoing : SMSOutgoingMessage) : SMSMessage where
  message_id := none
  phone_number := outgoing.phone_number
  message_content := outgoing.content
  message_reference := none
  is_outgoing := true
  status := .sent
  created_at := none
  completed_at := none

/-- Result of the part-submission loop in `SMSManager::send_sms`. -/
inductive SendLoopOutcome
  | earlyError (response : ModemResponse)
  | finished (last : Option ModemResponse)
deriving DecidableEq, Repr

/-- The part-submission loop of `SMSManager::send_sms` (src/sms/mod.rs lines
74-85): parts are submitted in order, each consuming the next modem response;
on the first `Error` response the loop returns immediately and no further part
is submitted.  Also counts the parts submitted. -/
def send_sms_parts : List ModemResponse → SendLoopOutcome × Nat
  | [] => (.finished none, 0)
  | r :: rest =>
    match r with
    | .error e => (.earlyError (.error e), 1)
    | r =>
      match send_sms_parts rest with
      | (.earlyError resp, k) => (.earlyError resp, k + 1)
      | (.finished last, k) => (.finished (some (last.getD r)), k + 1)

/-- Outbound send (`SMSManager::send_sms` in src/sms/mod.rs lines 72-129).
`responses` holds the modem's response to each encoded part in order (the PDU
encoding itself is an external-library seam).  On an early `Error` the source
returns `Ok((None, response))` before any database access.  After a completed
loop the last response decides the stored row; in the `Error` arm the source
builds the row with `PermanentFailure` and calls `insert_send_failure` but
drops the returned future without awaiting it, so no failure row is written
(that arm is in fact unreachable because the loop returns early on `Error`).
Returns the store, the events broadcast, the optional row id, the last
response, and the number of parts submitted. -/
def send_sms (now : Nat) (message : SMSOutgoingMessage) (responses : List ModemResponse)
    (db : SMSDatabaseState) :
    Except String (SMSDatabaseState × List Event × Option Nat × ModemResponse) × Nat :=
  match send_sms_parts responses with
  | (.earlyError response, k) => (.ok (db, [], none, response), k)
  | (.finished none, k) => (.error "Missing any valid SendSMS response!", k)
  | (.finished (some last), k) =>
    let new_message := SMSMessage.fromOutgoing message
    match last with
    | .sendResult reference_id =>
      let new_message := { new_message with message_reference := some reference_id }
      let step := insert_message now db new_message false
      (.ok (step.1, [Event.outgoingMessage { new_message with message_id := some step.2 }],
        some step.2, last), k)
    | .error _ =>
      let new_message := { new_message with status := .permanentFailure }
      let step := insert_message now db new_message true
      (.ok (step.1, [Event.outgoingMessage { new_message with message_id := some step.2 }],
        some step.2, last), k)
    | .other => (.error "Got invalid ModemResponse back from sending SMS message!", k)

/-- Newline test on a byte (`b'\r' | b'\n'` in src/modem/buffer.rs). -/
def isNewlineByte (c : Nat) : Bool := c == 13 || c == 10

/-- Rust `u8::is_ascii_whitespace`: space, tab, newline, form feed, carriage
return. -/
def isAsciiWhitespaceByte (c : Nat) : Bool :=
  c == 9 || c == 10 || c == 12 || c == 13 || c == 32

/-- Whitespace bytes removed by `str::trim`; on single-byte characters this is
the ASCII set plus vertical tab. -/
def isTrimWhitespaceByte (c : Nat) : Bool :=
  c == 9 || c == 10 || c == 11 || c == 12 || c == 13 || c == 32

/-- Byte-level model of `str::trim`: leading and trailing whitespace bytes are
removed (multi-byte characters never contain whitespace bytes, so trimming at
the byte level agrees with trimming at the character level). -/
def trimBytes (l : List Nat) : List Nat :=
  ((l.dropWhile isTrimWhitespaceByte).reverse.dropWhile isTrimWhitespaceByte).reverse

/-- Framer output events (`LineEvent` in src/modem/buffer.rs).  The text is kept
as the raw byte list: UTF-8 decoding (and its lossy fallback) only re-renders
the bytes and never changes the kind or the count of the events, which is all
the claims about the framer concern. -/
inductive LineEvent
  | line (text : List Nat)
  | prompt (text : List Nat)
deriving DecidableEq, Repr

/-- Event construction (`LineBuffer::try_create_event` in src/modem/buffer.rs):
empty or all-ASCII-whitespace data yields nothing; otherwise the data is
trimmed and wrapped unless the trimmed text is empty. -/
def try_create_event (data : List Nat) (ctor : List Nat → LineEvent) : Option LineEvent :=
  if data.isEmpty || data.all isAsciiWhitespaceByte then none
  else
    let content := trimBytes data
    if content.isEmpty then none else some (ctor content)

/-- Length of the leading newline run of a byte list (used to express the inner
loop of src/modem/buffer.rs line 48 that skips all consecutive newlines). -/
def countNewlines (l : List Nat) : Nat := (l.takeWhile isNewlineByte).length

/-- The tokenization loop of `LineBuffer::process_data` (src/modem/buffer.rs
lines 34-71), translated with the same two cursors: `start` is the beginning of
the current token and `i` the scan position.  A `>` byte is classified as a
prompt when `start == i` or the previous byte is a newline; a newline flushes
the pending token (when non-empty) as a `Line` and skips the whole newline run
(the byte at `i` is already known to be a newline, so the run it belongs to has
length `1 + countNewlines` of the rest, landing on the same position as the
source's inner loop).  Returns the collected events and the final `start` (the
retained tail is the buffer from `start`). -/
def scanEvents (b : List Nat) (start i : Nat) (acc : List LineEvent) :
    List LineEvent × Nat :=
  if hlen : i < b.length then
    let c := b.getD i 0
    if isNewlineByte c then
      let acc := if start < i then
          match try_create_event ((b.drop start).take (i - start)) LineEvent.line with
          | some e => acc ++ [e]
          | none => acc
        else acc
      let j := i + 1 + countNewlines (b.drop (i + 1))
      scanEvents b j j acc
    else if c == 62 then
      let is_prompt := start == i || (decide (0 < i) && isNewlineByte (b.getD (i - 1) 0))
      if is_prompt then
        let acc := match
            try_create_event ((b.drop start).take (i + 1 - start)) LineEvent.prompt with
          | some e => acc ++ [e]
          | none => acc
        scanEvents b (i + 1) (i + 1) acc
      else scanEvents b start (i + 1) acc
    else scanEvents b start (i + 1) acc
  else (acc, start)
termination_by b.length - i
decreasing_by
  all_goals omega

/-- The buffered framer (`LineBuffer` in src/modem/buffer.rs). -/
structure LineBuffer where
  buffer : List Nat
  max_buffer_size : Nat
deriving DecidableEq, Repr

/-- The overflow trim at the top of `process_data` (src/modem/buffer.rs lines
24-32): the input is appended, and if the result exceeds the cap only the most
recent `max_buffer_size` bytes are kept. -/
def LineBuffer.capped_buffer (lb : LineBuffer) (data : List Nat) : List Nat :=
  let buf := lb.buffer ++ data
  if buf.length > lb.max_buffer_size then
    buf.drop (buf.length - lb.max_buffer_size)
  else buf

/-- `LineBuffer::process_data` (src/modem/buffer.rs lines 23-79): append and
cap, tokenize, retain the partial tail.  Returns the new buffer state and the
events. -/
def LineBuffer.process_data (lb : LineBuffer) (data : List Nat) :
    LineBuffer × List LineEvent :=
  let buf := lb.capped_buffer data
  let scanned := scanEvents buf 0 0 []
  ({ lb with buffer := buf.drop scanned.2 }, scanned.1)

/-- Reference tokenizer for the framer: one pass over the bytes carrying the
pending token `cur`.  A newline flushes `cur` as a `Line`; a `>` byte is a
`Prompt` exactly when `cur` is empty — that is, at the start of the retained
buffer, immediately after a newline byte, or immediately after a previously
emitted `Prompt` — and is ordinary text inside `cur` otherwise. -/
def tokenizeFramer : List Nat → List Nat → List LineEvent × List Nat
  | cur, [] => ([], cur)
  | cur, c :: rest =>
    if isNewlineByte c then
      let evs := (try_create_event cur LineEvent.line).elim [] (fun e => [e])
      let tail := tokenizeFramer [] rest
      (evs ++ tail.1, tail.2)
    else if c == 62 then
      if cur.isEmpty then
        let tail := tokenizeFramer [] rest
        ((try_create_event [62] LineEvent.prompt).elim [] (fun e => [e]) ++ tail.1, tail.2)
      else tokenizeFramer (cur ++ [c]) rest
    else tokenizeFramer (cur ++ [c]) rest

/-- Tokenizer following the claim's words for the framer: a `>` byte is a
`Prompt` only at the very start of the buffer or immediately after a `\r` or
`\n` byte (tracked through `prev`, the previous byte); anywhere else — in
particular immediately after a previous `>` — it is ordinary text within the
pending line. -/
def tokenizeClaim : Option Nat → List Nat → List Nat → List LineEvent × List Nat
  | _, cur, [] => ([], cur)
  | prev, cur, c :: rest =>
    if isNewlineByte c then
      let evs := (try_create_event cur LineEvent.line).elim [] (fun e => [e])
      let tail := tokenizeClaim (some c) [] rest
      (evs ++ tail.1, tail.2)
    else if c == 62 then
      if prev.elim true (fun p => isNewlineByte p) then
        let tail := tokenizeClaim (some c) [] rest
        (LineEvent.prompt [62] :: tail.1, tail.2)
      else tokenizeClaim (some c) (cur ++ [c]) rest
    else tokenizeClaim (some c) (cur ++ [c]) rest

/-- Split of a character list at every occurrence of one character, keeping
empty pieces (the semantics of Rust `str::split` with a one-character pattern). -/
def splitChar (ch : Char) : List Char → List (List Char)
  | [] => [[]]
  | c :: tl =>
    if c == ch then [] :: splitChar ch tl
    else
      match splitChar ch tl with
      | [] => [[c]]
      | t :: ts => (c :: t) :: ts

/-- Split of a character list at every occurrence of a two-character pattern,
leftmost and non-overlapping (the semantics of Rust `str::split`). -/
def splitTwo (a b : Char) : List Char → List (List Char)
  | [] => [[]]
  | [c] => [[c]]
  | c1 :: c2 :: tl =>
    if c1 == a && c2 == b then [] :: splitTwo a b tl
    else
      match splitTwo a b (c2 :: tl) with
      | [] => [[c1]]
      | t :: ts => (c1 :: t) :: ts

/-- Rust `str::lines`: split at every `\n`, strip one trailing `\r` from each
piece, and do not yield a final empty piece when the string ends in `\n`. -/
def rustLines (s : String) : List String :=
  let parts := splitChar '\n' s.data
  let parts := match parts.getLast? with
    | some [] => parts.dropLast
    | _ => parts
  parts.map (fun p =>
    match p.getLast? with
    | some '\r' => ⟨p.dropLast⟩
    | _ => ⟨p⟩)

/-- Rust `str::split_once` with the two-character separator `": "`: the pieces
around the first occurrence, or nothing when the separator does not occur. -/
def splitOnceColonSpace (s : String) : Option (String × String) :=
  match splitTwo ':' ' ' s.data with
  | [] => none
  | [_] => none
  | a :: rest => some (⟨a⟩, ⟨List.intercalate [':', ' '] rest⟩)

/-- Outcome of running Rust code that can panic: a panic (such as an
out-of-bounds `Vec` index), a typed error (`Err`), or a value (`Ok`). -/
inductive RustResult (α : Type) where
  | panicked
  | err (message : String)
  | ok (value : α)
deriving DecidableEq, Repr

/-- Strip one leading sign character. -/
def stripSign (l : List Char) : List Char :=
  match l with
  | c :: r => if c = '+' ∨ c = '-' then r else l
  | [] => []

/-- Mantissa grammar of Rust `f64::from_str`: digits, optionally with one dot
and a fractional part, at least one digit overall. -/
def isMantissa (l : List Char) : Bool :=
  let ds := l.takeWhile (·.isDigit)
  let rest := l.dropWhile (·.isDigit)
  match rest with
  | [] => !ds.isEmpty
  | '.' :: frac => (!ds.isEmpty || !frac.isEmpty) && frac.all (·.isDigit)
  | _ => false

/-- Exponent part after the `e`/`E` marker: optional sign, then digits. -/
def isExpPart (l : List Char) : Bool :=
  let l := stripSign l
  !l.isEmpty && l.all (·.isDigit)

/-- Acceptance test of Rust `f64::from_str` / `f32::from_str` (IEEE value
semantics are out of scope; a float is modelled below by its accepted numeral
string): optional sign, then `inf`/`infinity`/`nan` (case-insensitive) or a
mantissa with an optional exponent. -/
def isF64Numeral (s : String) : Bool :=
  let l := stripSign s.data
  let low := l.map Char.toLower
  if low = "inf".data || low = "infinity".data || low = "nan".data then true
  else
    let m := l.takeWhile (fun c => !(c == 'e' || c == 'E'))
    let rest := l.dropWhile (fun c => !(c == 'e' || c == 'E'))
    match rest with
    | [] => isMantissa m
    | _ :: ex => isMantissa m && isExpPart ex

/-- Rust `u8::from_str`: optional leading `+`, then decimal digits, value at
most 255. -/
def rustParseU8 (s : String) : Option Nat :=
  let l := match s.data with
    | '+' :: r => r
    | l => l
  if !l.isEmpty && l.all (·.isDigit) then
    let n := l.foldl (fun acc c => acc * 10 + (c.toNat - 48)) 0
    if n ≤ 255 then some n else none
  else none

/-- Rust `char::from_str`: succeeds exactly on one-character strings. -/
def rustParseChar (s : String) : Option Char :=
  match s.data with
  | [c] => some c
  | _ => none

/-- The `parse_optional_f32` closure in `GNSSLocation::try_from`
(src/modem/types.rs lines 184-190): an empty field is zero, otherwise the
field must parse as a float.  The float is kept as its numeral string. -/
def parse_optional_f32 (s : String) : Except String String :=
  if s.data.isEmpty then .ok "0"
  else if isF64Numeral s then .ok s
  else .error "Invalid number format"

/-- The `parse_optional_u8` closure (src/modem/types.rs lines 191-197). -/
def parse_optional_u8 (s : String) : Except String Nat :=
  if s.data.isEmpty then .ok 0
  else match rustParseU8 s with
    | some n => .ok n
    | none => .error "Invalid number format"

/-- The `parse_coordinate` closure (src/modem/types.rs lines 198-203): the
coordinate must parse as a float and the direction as a single character. -/
def parse_coordinate (coord dir : String) (name : String) : Except String (String × Char) :=
  if isF64Numeral coord then
    match rustParseChar dir with
    | some c => .ok (coord, c)
    | none => .error ("Invalid " ++ name ++ " coordinate direction")
  else .error ("Could not parse " ++ name ++ " coordinate")

/-- GNSS location record (`GNSSLocation` in src/modem/types.rs).  Float-valued
fields carry the accepted numeral string; coordinates pair it with the
direction character. -/
structure GNSSLocation where
  longitude : String × Char
  latitude : String × Char
  altitude : String
  utc_time : String
  satellites_used : Nat
  hdop : String
  geoid_separation : String
  position_fix_indicator : Nat
deriving DecidableEq, Repr

/-- Indexing of `fields[i]` in `GNSSLocation::try_from`: Rust `Vec` indexing
panics when the index is out of bounds. -/
def gnssField (fields : List String) (i : Nat) : RustResult String :=
  match fields.get? i with
  | some s => .ok s
  | none => .panicked

/-- Lift a closure result into the panic-aware result. -/
def rustLift {α : Type} : Except String α → RustResult α
  | .ok v => .ok v
  | .error e => .err e

/-- `impl TryFrom<Vec<&str>> for GNSSLocation` (src/modem/types.rs lines
180-216).  Fields are read in the evaluation order of the struct literal:
longitude (2, 3), latitude (4, 5), altitude (9), utc_time (1), satellites (7),
hdop (8), geoid separation (11), fix indicator (6); each `fields[i]` access
panics when the vector is too short.  `utc_time` uses `unwrap_or(0.0)`, so it
never errors. -/
def GNSSLocation.tryFrom (fields : List String) : RustResult GNSSLocation :=
  match gnssField fields 2 with
  | .panicked => .panicked
  | .err e => .err e
  | .ok f2 =>
  match gnssField fields 3 with
  | .panicked => .panicked
  | .err e => .err e
  | .ok f3 =>
  match rustLift (parse_coordinate f2 f3 "longitude") with
  | .panicked => .panicked
  | .err e => .err e
  | .ok longitude =>
  match gnssField fields 4 with
  | .panicked => .panicked
  | .err e => .err e
  | .ok f4 =>
  match gnssField fields 5 with
  | .panicked => .panicked
  | .err e => .err e
  | .ok f5 =>
  match rustLift (parse_coordinate f4 f5 "latitude") with
  | .panicked => .panicked
  | .err e => .err e
  | .ok latitude =>
  match gnssField fields 9 with
  | .panicked => .panicked
  | .err e => .err e
  | .ok f9 =>
  match rustLift (parse_optional_f32 f9) with
  | .panicked => .panicked
  | .err e => .err e
  | .ok altitude =>
  match gnssField fields 1 with
  | .panicked => .panicked
  | .err e => .err e
  | .ok f1 =>
  let utc_time := if isF64Numeral f1 then f1 else "0"
  match gnssField fields 7 with
  | .panicked => .panicked
  | .err e => .err e
  | .ok f7 =>
  match rustLift (parse_optional_u8 f7) with
  | .panicked => .panicked
  | .err e => .err e
  | .ok satellites_used =>
  match gnssField fields 8 with
  | .panicked => .panicked
  | .err e => .err e
  | .ok f8 =>
  match rustLift (parse_optional_f32 f8) with
  | .panicked => .panicked
  | .err e => .err e
  | .ok hdop =>
  match gnssField fields 11 with
  | .panicked => .panicked
  | .err e => .err e
  | .ok f11 =>
  match rustLift (parse_optional_f32 f11) with
  | .panicked => .panicked
  | .err e => .err e
  | .ok geoid_separation =>
  match gnssField fields 6 with
  | .panicked => .panicked
  | .err e => .err e
  | .ok f6 =>
  match rustLift (parse_optional_u8 f6) with
  | .panicked => .panicked
  | .err e => .err e
  | .ok position_fix_indicator =>
  .ok {
    longitude := longitude
    latitude := latitude
    altitude := altitude
    utc_time := utc_time
    satellites_used := satellites_used
    hdop := hdop
    geoid_separation := geoid_separation
    position_fix_indicator := position_fix_indicator }

/-- `parse_cgnsinf_response` (src/modem/parsers.rs lines 192-206): find the
line starting (after trim) with the solicited or unsolicited header, split it
once at `": "`, split the data on commas and convert. -/
def parse_cgnsinf_response (response : String) (unsolicited : Bool) :
    RustResult GNSSLocation :=
  let header := if unsolicited then "+UGNSINF" else "+CGNSINF"
  match (rustLines response).find? (fun line => rustStartsWith (rustTrim line) header) with
  | none => .err "No CGNSINF response found in buffer"
  | some line =>
    match splitOnceColonSpace line with
    | none => .err "Missing CGNSINF data"
    | some p => GNSSLocation.tryFrom (((splitChar ',' (rustTrim p.2).data).map
        (fun l => (⟨l⟩ : String))))

/-- Framed events as the state machine classifies them (`ModemEvent` in
src/modem/types.rs). -/
inductive ModemEvent
  | unsolicitedMessage (message_type : UnsolicitedMessageType) (header : String)
  | commandResponse (content : String)
  | data (content : String)
  | prompt (content : String)
deriving DecidableEq, Repr

/-- Outcome of the async prompt-handler seam
(`ModemEventHandlers::prompt_handler`): a new command sub-state, completion
with no payload to write, or a failure. -/
inductive PromptHandlerOutcome
  | newState (command_state : CommandState)
  | complete
  | failed (message : String)
deriving DecidableEq, Repr

/-- Outcome of the async command-responder seam
(`ModemEventHandlers::command_responder`): a parsed response or a failure. -/
inductive CommandResponderOutcome
  | response (response : ModemResponse)
  | failed (message : String)
deriving DecidableEq, Repr

/-- The command context the event dispatch reads (`CommandContext`): the
sub-state and the accumulated response buffer. -/
structure CommandContext where
  state : CommandState
  response_buffer : String
deriving DecidableEq, Repr

/-- An in-flight command execution as `process_event` sees it
(`CommandExecution` in src/modem/state_machine.rs): the command with its result
sink and the context.  The thin `CommandExecution` above keeps only the fields
the timeout tick reads; this one keeps the fields the event dispatch reads. -/
structure CommandExecutionCtx where
  command : OutgoingCommand
  context : CommandContext
deriving DecidableEq, Repr

/-- `StateMachineState` as the event dispatch manipulates it. -/
inductive MachineDispatchState
  | idle
  | command (execution : CommandExecutionCtx)
  | unsolicitedMessage (message_type : UnsolicitedMessageType) (header : String)
      (interrupted_command : Option CommandExecutionCtx)
deriving DecidableEq, Repr

/-- Result of one `process_event` dispatch: the machine state after the call
(the source takes the state at entry, so when the catch-all arm bails the
machine is left `Idle` and the taken state — with any command it held — is
dropped), the respond signals performed during the dispatch (command sequence
paired with the response), and the error when the dispatch bailed. -/
structure DispatchResult where
  state : MachineDispatchState
  signals : List (Nat × ModemResponse)
  error : Option String
deriving DecidableEq, Repr

/-- The `Prompt` arm of `ModemStateMachine::process_command`
(src/modem/state_machine.rs lines 197-224): the content is appended to the
response buffer; the prompt handler either advances the command sub-state, or
the command is completed with an error response through `respond` and the
machine goes idle. -/
def process_command_prompt (po : PromptHandlerOutcome) (e : CommandExecutionCtx)
    (content : String) : DispatchResult :=
  let ctx := { e.context with response_buffer := e.context.response_buffer ++ content }
  match po with
  | .newState s =>
    { state := .command { e with context := { ctx with state := s } }
      signals := [], error := none }
  | .complete =>
    let step := e.command.respond
    { state := .idle
      signals := if step.2 then
          [(e.command.sequence,
            ModemResponse.error "Command completed during prompt handling")]
        else []
      error := none }
  | .failed msg =>
    let step := e.command.respond
    { state := .idle
      signals := if step.2 then
          [(e.command.sequence, ModemResponse.error ("Prompt handler error: " ++ msg))]
        else []
      error := none }

/-- The `CommandResponse | Data` arm of `ModemStateMachine::process_command`
(src/modem/state_machine.rs lines 227-249): the content plus a newline is
appended to the buffer; when `is_complete` holds the responder's result (or its
error) is signalled through `respond` and the machine goes idle, otherwise the
command continues. -/
def process_command_line (ro : CommandResponderOutcome) (e : CommandExecutionCtx)
    (content : String) : DispatchResult :=
  let ctx := { e.context with
    response_buffer := e.context.response_buffer ++ content ++ "\n" }
  if e.context.state.is_complete content then
    let step := e.command.respond
    let response := match ro with
      | .response r => r
      | .failed msg => ModemResponse.error msg
    { state := .idle
      signals := if step.2 then [(e.command.sequence, response)] else []
      error := none }
  else
    { state := .command { e with context := ctx }, signals := [], error := none }

/-- `ModemStateMachine::process_event` (src/modem/state_machine.rs lines
121-186), with the two handler seams as parameters.  The arms follow the
source's order; the `Command` state with a `Prompt`, `CommandResponse` or
`Data` event routes through `process_command` (whose `UnsolicitedMessage` arm
is unreachable, the earlier dispatch arm having caught it).  The source
matches on `take(&mut self.state)`, so in the final catch-all arm — an
`UnsolicitedMessage` state receiving anything but a `Data` line — the machine
is left `Idle`, the `bail!` error is returned, and the taken state is dropped:
a command suspended there is destroyed with its sink never signalled (the
worker, src/modem/worker.rs lines 117-120, only logs the error and calls
`reset_to_idle`). -/
def process_event (po : PromptHandlerOutcome) (ro : CommandResponderOutcome) :
    MachineDispatchState → ModemEvent → DispatchResult
  | .unsolicitedMessage _ _ interrupted, .data _ =>
    { state := match interrupted with
        | some e => .command e
        | none => .idle
      signals := [], error := none }
  | .command e, .unsolicitedMessage t hd =>
    { state := .unsolicitedMessage t hd (some e), signals := [], error := none }
  | .idle, .unsolicitedMessage t hd =>
    { state := .unsolicitedMessage t hd none, signals := [], error := none }
  | .command e, .prompt content => process_command_prompt po e content
  | .command e, .commandResponse content => process_command_line ro e content
  | .command e, .data content => process_command_line ro e content
  | .idle, .prompt _ => { state := .idle, signals := [], error := none }
  | .idle, .commandResponse _ => { state := .idle, signals := [], error := none }
  | .idle, .data _ => { state := .idle, signals := [], error := none }
  | .unsolicitedMessage _ _ _, _ =>
    { state := .idle, signals := [], error := some "Invalid state transition" }

/-!
Theorems.  Each claim of the specification gets one theorem (with a
counterexample theorem where the claim fails as stated, and a witness theorem
where a proved statement carries hypotheses).
-/

/-- C1: the claim states that the scavenger pass removes a multipart group
exactly when its last activity is older than 30 minutes and keeps the fresh
groups.  The code does the opposite: `HashMap::retain` keeps the entries whose
closure returns true, and the closure returns `is_stalled()`.  At time 1801 s a
group idle since 0 s (stalled for 30 min + 1 s) is kept, while a group idle for
one second (last activity 1800 s) is removed. -/
theorem c1_scavenger_keeps_stalled_groups :
    SMSMultipartMessages.is_stalled 1801 (SMSMultipartMessages.with_capacity 0 2) = true ∧
    SMSMultipartMessages.is_stalled 1801 (SMSMultipartMessages.with_capacity 1800 2) = false ∧
    cleanup_stalled_multipart 1801
        [(5, SMSMultipartMessages.with_capacity 0 2),
         (9, SMSMultipartMessages.with_capacity 1800 2)]
      = [(5, SMSMultipartMessages.with_capacity 0 2)] :=
  ⟨rfl, rfl, rfl⟩

/-- C2 counterexample: feeding both parts of a two-part concatenation (ref 7,
total 2, the parts out of order) yields exactly one message with the ordered
concatenation "hello world" — but the group is NOT removed from the reassembler
map afterwards, refuting the removal conjunct of the claim. -/
theorem c2_group_not_removed :
    (run_incoming 100
        [⟨"+447700900123", some ⟨[⟨0, [7, 2, 2]⟩]⟩, "world"⟩,
         ⟨"+447700900123", some ⟨[⟨0, [7, 2, 1]⟩]⟩, "hello "⟩] []).2
      = [Except.ok
          { message_id := none
            phone_number := "+447700900123"
            message_content := "hello world"
            message_reference := none
            is_outgoing := false
            status := .received
            created_at := none
            completed_at := none }] ∧
    (lookupGroup (run_incoming 100
        [⟨"+447700900123", some ⟨[⟨0, [7, 2, 2]⟩]⟩, "world"⟩,
         ⟨"+447700900123", some ⟨[⟨0, [7, 2, 1]⟩]⟩, "hello "⟩] []).1 7).isSome = true :=
  ⟨rfl, rfl⟩

/-- C3: the claim requires the target message of a successful (terminal) final
delivery report to be updated to `Delivered`.  The code maps a successful
report status through `SMSStatus::from(MessageStatus)`, which yields `Received`
for success, so the open outgoing message (id 1, reference 42) ends with status
`Received` (integer 2) instead of `Delivered` (integer 1); `completed_at` is
set and the report row has `is_final = true` as the claim says. -/
theorem c3_success_report_marks_received :
    handle_delivery_report 500
        ⟨[⟨1, "+447700900123", "hi", some 42, true, .sent, none⟩], [], []⟩
        ⟨"+447700900123", 42, ⟨true, false, false⟩⟩
      = .ok (⟨[⟨1, "+447700900123", "hi", some 42, true, .received, some 500⟩],
              [⟨1, 2, true⟩], []⟩,
             [Event.deliveryReport 1 ⟨"+447700900123", 42, ⟨true, false, false⟩⟩], 1) ∧
    SMSStatus.fromMessageStatus ⟨true, false, false⟩ = .received :=
  ⟨rfl, rfl⟩

/-- C4: the claim requires that after a part's `Error` response the store holds
one `PermanentFailure` messages row with `completed_at` set plus one
send_failures row.  The code returns `Ok((None, Error))` as soon as a part
fails, before any database access: with two parts whose first response is an
error, only one part is submitted (consistent with the claim) but the store is
left completely unchanged — no messages row and no send_failures row — and no
event is broadcast. -/
theorem c4_error_response_persists_nothing :
    send_sms 100 ⟨"+447700900123", "hello"⟩ [.error "+CMS ERROR: 500", .sendResult 7]
        SMSDatabaseState.empty
      = (.ok (SMSDatabaseState.empty, [], none, .error "+CMS ERROR: 500"), 1) :=
  rfl

/-- C5 counterexample: a command with deadline 5 s is suspended inside an
unsolicited message at time 10 s — it is timed out by its own test — yet the
timeout tick leaves the state unchanged and signals nothing, refuting the claim
that the timeout fires in the `UnsolicitedMessage` state. -/
theorem c5_suspended_timeout_not_fired :
    CommandExecution.is_timed_out ⟨1, 5⟩ 10 = true ∧
    handle_command_timeout 10
        (.unsolicitedMessage .incomingSMS "+CMT: ,24" (some ⟨1, 5⟩))
      = (.unsolicitedMessage .incomingSMS "+CMT: ,24" (some ⟨1, 5⟩), none) :=
  ⟨rfl, rfl⟩

/-- C5 amended: the timeout tick signals the sink and resets to `Idle` only in
the `Command` state; in the `UnsolicitedMessage` state, even with a suspended
command past its deadline, the tick changes nothing and signals nothing. -/
theorem c5_timeout_only_in_command_state (now : Nat) (e : CommandExecution)
    (h : e.timeout_at ≤ now) :
    handle_command_timeout now (.command e) = (.idle, some "Command timed out!") ∧
    ∀ (t : UnsolicitedMessageType) (hd : String) (ic : Option CommandExecution),
      handle_command_timeout now (.unsolicitedMessage t hd ic)
        = (.unsolicitedMessage t hd ic, none) := by
  constructor
  · simp [handle_command_timeout, CommandExecution.is_timed_out, ge_iff_le, h]
  · intro t hd ic
    rfl

/-- C5 witness: the amended statement at deadline 5 s and time 10 s. -/
theorem c5_timeout_witness :
    (⟨1, 5⟩ : CommandExecution).timeout_at ≤ 10 ∧
    (handle_command_timeout 10 (.command ⟨1, 5⟩) = (.idle, some "Command timed out!") ∧
      ∀ (t : UnsolicitedMessageType) (hd : String) (ic : Option CommandExecution),
        handle_command_timeout 10 (.unsolicitedMessage t hd ic)
          = (.unsolicitedMessage t hd ic, none)) :=
  ⟨by decide, c5_timeout_only_in_command_state 10 ⟨1, 5⟩ (by decide)⟩

/-- C6: the claim states every AT response parser returns a typed result or a
typed error on every input with no reachable panic.  A `+CGNSINF` line with
only two comma-separated fields makes `GNSSLocation::try_from` evaluate
`fields[2]`, an out-of-bounds `Vec` index, which panics. -/
theorem c6_truncated_cgnsinf_panics :
    parse_cgnsinf_response "+CGNSINF: 1,1" false = .panicked :=
  rfl

/-- C7 counterexample: in `WaitingForData` the code checks only `+CMGS:`, `OK`
and `ERROR`, so the line `+CMS ERROR: 305` — which the claim lists as complete
in that sub-state — is not complete. -/
theorem c7_cms_error_incomplete_in_waiting_for_data :
    ¬ (CommandState.is_complete .waitingForData "+CMS ERROR: 305" = true ↔
        ("+CMS ERROR: 305" = "OK" ∨ "+CMS ERROR: 305" = "ERROR" ∨
          rustStartsWith "+CMS ERROR: 305" "+CME ERROR:" = true ∨
          rustStartsWith "+CMS ERROR: 305" "+CMS ERROR:" = true ∨
          rustStartsWith "+CMS ERROR: 305" "+CMGS:" = true)) := by
  decide

/-- C7 amended: `is_complete` in `WaitingForOk` holds exactly on `OK`, `ERROR`
or a line starting with `+CME ERROR:` or `+CMS ERROR:`; in `WaitingForData` it
holds exactly on `OK`, `ERROR` or a line starting with `+CMGS:` (the CME/CMS
error forms are NOT completion lines in `WaitingForData`). -/
theorem c7_is_complete_characterization (content : String) :
    (CommandState.is_complete .waitingForOk content = true ↔
      (content = "OK" ∨ content = "ERROR" ∨
        rustStartsWith content "+CME ERROR:" = true ∨
        rustStartsWith content "+CMS ERROR:" = true)) ∧
    (CommandState.is_complete .waitingForData content = true ↔
      (content = "OK" ∨ content = "ERROR" ∨
        rustStartsWith content "+CMGS:" = true)) := by
  constructor <;> simp [CommandState.is_complete] <;> tauto

theorem respondCalls_of_taken (n : Nat) (c : OutgoingCommand)
    (h : c.response_tx = none) : (respondCalls n c).2 = 0 := by
  induction n generalizing c with
  | zero => rfl
  | succ k ih =>
    simp only [respondCalls, OutgoingCommand.respond, h]
    simpa using ih c h

/-- C9 counterexample: a started command whose sink was never signalled (its
oneshot sender is still unused) is suspended under an unsolicited message; a
`Prompt` event arrives next.  The dispatch hits the catch-all `bail!` arm: the
machine ends `Idle` with an error, zero respond signals are performed, and the
command is no longer held anywhere — its sink can never be signalled, refuting
"every command that is started is eventually signaled exactly once". -/
theorem c9_suspended_command_dropped_unsignalled :
    (OutgoingCommand.new 9).response_tx = some () ∧
    process_event (.newState .waitingForOk) (.response (.sendResult 1))
        (.unsolicitedMessage .incomingSMS "+CMT: ,24"
          (some ⟨OutgoingCommand.new 9, ⟨.waitingForOk, ""⟩⟩))
        (.prompt ">")
      = ⟨.idle, [], some "Invalid state transition"⟩ :=
  ⟨rfl, rfl⟩

/-- C9 amended: the response sink of a command is signalled at most once — the
first `respond` call delivers and across any `n` calls the sink is signalled
`min n 1` times, every later call being logged and dropped — but not every
started command is signalled at all: a command suspended by an unsolicited
message is dropped without any signal when the machine receives a `Prompt` or
`CommandResponse` event in that state (the catch-all arm bails, leaving the
machine `Idle`), so "exactly once" holds only for commands that reach a
respond, error or timeout path. -/
theorem c9_sink_signalled_at_most_once (seq n : Nat) :
    (OutgoingCommand.new seq).respond.2 = true ∧
    (respondCalls n (OutgoingCommand.new seq)).2 = min n 1 ∧
    ∀ (po : PromptHandlerOutcome) (ro : CommandResponderOutcome)
      (t : UnsolicitedMessageType) (hd content : String) (e : CommandExecutionCtx),
      process_event po ro (.unsolicitedMessage t hd (some e)) (.prompt content)
        = ⟨.idle, [], some "Invalid state transition"⟩ ∧
      process_event po ro (.unsolicitedMessage t hd (some e)) (.commandResponse content)
        = ⟨.idle, [], some "Invalid state transition"⟩ := by
  refine ⟨rfl, ?_, ?_⟩
  · cases n with
    | zero => rfl
    | succ k =>
      have h : (respondCalls k ⟨seq, none⟩).2 = 0 :=
        respondCalls_of_taken k ⟨seq, none⟩ rfl
      simp only [respondCalls, OutgoingCommand.respond, OutgoingCommand.new]
      simp [h]
  · intro po ro t hd content e
    exact ⟨rfl, rfl⟩

theorem capped_buffer_length_le (lb : LineBuffer) (data : List Nat) :
    (lb.capped_buffer data).length ≤ lb.max_buffer_size := by
  by_cases hcase : (lb.buffer ++ data).length > lb.max_buffer_size
  · simp only [LineBuffer.capped_buffer, hcase, if_true]
    simp only [List.length_drop, List.length_append] at hcase ⊢
    omega
  · simp only [LineBuffer.capped_buffer, hcase, if_false]
    simp only [List.length_append, gt_iff_lt, not_lt] at hcase ⊢
    omega

/-- C10: the framer buffer is bounded.  After any `process_data` call the
retained buffer never exceeds the cap; when the appended input overflows the
cap, the pre-tokenization buffer is exactly the most recent `max_buffer_size`
bytes; and the transient buffer built during the call never exceeds the cap
plus the size of this call's chunk. -/
theorem c10_buffer_bounded (lb : LineBuffer) (data : List Nat)
    (h : lb.buffer.length ≤ lb.max_buffer_size) :
    (lb.process_data data).1.buffer.length ≤ lb.max_buffer_size ∧
    ((lb.buffer ++ data).length > lb.max_buffer_size →
      lb.capped_buffer data
          = (lb.buffer ++ data).drop ((lb.buffer ++ data).length - lb.max_buffer_size) ∧
        (lb.capped_buffer data).length = lb.max_buffer_size) ∧
    (lb.buffer ++ data).length ≤ lb.max_buffer_size + data.length := by
  refine ⟨?_, ?_, ?_⟩
  · have hc := capped_buffer_length_le lb data
    simp only [LineBuffer.process_data]
    calc ((lb.capped_buffer data).drop
            (scanEvents (lb.capped_buffer data) 0 0 []).2).length
        ≤ (lb.capped_buffer data).length := by simp
      _ ≤ lb.max_buffer_size := hc
  · intro hover
    constructor
    · simp only [LineBuffer.capped_buffer, hover, if_true]
    · have hover2 : lb.buffer.length + data.length > lb.max_buffer_size := by
        simpa using hover
      simp only [LineBuffer.capped_buffer, List.length_append, hover2, if_true,
        List.length_drop]
      omega
  · simp only [List.length_append]
    omega

/-- C10 witness: a 3-byte write into an empty framer with cap 2. -/
theorem c10_buffer_bounded_witness :
    (LineBuffer.mk [] 2).buffer.length ≤ (LineBuffer.mk [] 2).max_buffer_size ∧
    (((LineBuffer.mk [] 2).process_data [49, 50, 51]).1.buffer.length
        ≤ (LineBuffer.mk [] 2).max_buffer_size ∧
      (((LineBuffer.mk [] 2).buffer ++ [49, 50, 51]).length
            > (LineBuffer.mk [] 2).max_buffer_size →
        (LineBuffer.mk [] 2).capped_buffer [49, 50, 51]
            = ((LineBuffer.mk [] 2).buffer ++ [49, 50, 51]).drop
                (((LineBuffer.mk [] 2).buffer ++ [49, 50, 51]).length
                  - (LineBuffer.mk [] 2).max_buffer_size) ∧
          ((LineBuffer.mk [] 2).capped_buffer [49, 50, 51]).length
            = (LineBuffer.mk [] 2).max_buffer_size) ∧
      ((LineBuffer.mk [] 2).buffer ++ [49, 50, 51]).length
        ≤ (LineBuffer.mk [] 2).max_buffer_size + [49, 50, 51].length) :=
  ⟨by decide, c10_buffer_bounded (LineBuffer.mk [] 2) [49, 50, 51] (by decide)⟩

theorem foldl_opt_append (ts : List String) (acc : String) :
    (ts.map some).foldl (fun a o => match o with | some t => a ++ t | none => a) acc
      = ts.foldl (· ++ ·) acc := by
  induction ts generalizing acc with
  | nil => rfl
  | cons t ts ih =>
    simp only [List.map_cons, List.foldl_cons]
    exact ih (acc ++ t)

theorem compile_of_full (N : Nat) (phone : String) (f : Nat → String)
    (g : SMSMultipartMessages) (fm : SMSIncomingMessage)
    (hfm : g.first_message = some fm) (hphone : fm.phone_number = phone)
    (hlen : g.text_parts.length = N)
    (hslots : ∀ j, j < N → g.text_parts.get? j = some (some (f (j + 1)))) :
    g.compile = .ok
      { message_id := none
        phone_number := phone
        message_content := ((List.range' 1 N).map f).foldl (· ++ ·) ""
        message_reference := none
        is_outgoing := false
        status := .received
        created_at := none
        completed_at := none } := by
  have hlist : g.text_parts = ((List.range' 1 N).map f).map some := by
    apply List.ext_getElem?
    intro n
    by_cases hn : n < N
    · have h1 := hslots n hn
      rw [List.get?_eq_getElem?] at h1
      rw [h1, List.getElem?_map, List.getElem?_map, List.getElem?_range' _ _ hn]
      simp [Nat.add_comm 1 n]
    · have h2 : g.text_parts.length ≤ n := by omega
      have h3 : (((List.range' 1 N).map f).map some).length ≤ n := by
        simp [List.length_range']
        omega
      rw [List.getElem?_eq_none h2, List.getElem?_eq_none h3]
  simp only [SMSMultipartMessages.compile, hfm, hlist, foldl_opt_append]
  simp [SMSMessage.fromIncoming, hphone]

theorem run_incoming_multipart_aux (now r N : Nat) (phone : String) (f : Nat → String)
    (rest : List Nat) :
    ∀ (done : List Nat) (g : SMSMultipartMessages) (fm : SMSIncomingMessage),
      (done ++ rest).Perm (List.range' 1 N) →
      rest ≠ [] →
      g.total_size = N →
      g.received_count = done.length →
      g.text_parts.length = N →
      (∀ j, j < N → g.text_parts.get? j
          = some (if (j + 1) ∈ done then some (f (j + 1)) else none)) →
      g.first_message = some fm →
      fm.phone_number = phone →
      ∃ gfin : SMSMultipartMessages,
        run_incoming now
            (rest.map (fun i => ⟨phone, some ⟨[⟨0, [r, N, i]⟩]⟩, f i⟩)) [(r, g)]
          = ([(r, gfin)],
             [Except.ok
               { message_id := none
                 phone_number := phone
                 message_content := ((List.range' 1 N).map f).foldl (· ++ ·) ""
                 message_reference := none
                 is_outgoing := false
                 status := .received
                 created_at := none
                 completed_at := none }]) := by
  induction rest with
  | nil => intro done g fm _ hne; exact absurd rfl hne
  | cons i rest' ih =>
    intro done g fm hperm _ htot hcount hlen hslots hfm hphone
    -- facts about i
    have hmem : i ∈ List.range' 1 N := hperm.mem_iff.mp (by simp)
    have hi := List.mem_range'_1.mp hmem
    have hi1 : 1 ≤ i := hi.1
    have hiN : i ≤ N := by omega
    have hnd : (done ++ i :: rest').Nodup :=
      hperm.nodup_iff.mpr (List.nodup_range' 1 N)
    have hinotdone : i ∉ done := by
      rcases List.nodup_append.mp hnd with ⟨_, _, hdisj⟩
      intro hcontra
      exact hdisj hcontra (by simp)
    have hlength : done.length + (rest'.length + 1) = N := by
      have := hperm.length_eq
      simp [List.length_range'] at this
      omega
    -- the step computation
    have hslotget : g.text_parts[i - 1]? = some none := by
      have h0 := hslots (i - 1) (by omega)
      rw [List.get?_eq_getElem?] at h0
      rw [h0]
      have h1 : i - 1 + 1 = i := by omega
      rw [h1, if_neg hinotdone]
    have hfmnone : g.first_message.isNone = false := by rw [hfm]; rfl
    have hadd : g.add_message now ⟨phone, some ⟨[⟨0, [r, N, i]⟩]⟩, f i⟩ i
        = ({ g with
              last_updated := now
              text_len := g.text_len + (f i).length
              text_parts := g.text_parts.set (i - 1) (some (f i))
              received_count := g.received_count + 1 },
           decide (g.received_count + 1 ≥ g.total_size)) := by
      simp [SMSMultipartMessages.add_message, hfmnone, hslotget]
    have hget : get_incoming_sms_message now [(r, g)] ⟨phone, some ⟨[⟨0, [r, N, i]⟩]⟩, f i⟩
        = ([(r, ({ g with
              last_updated := now
              text_len := g.text_len + (f i).length
              text_parts := g.text_parts.set (i - 1) (some (f i))
              received_count := g.received_count + 1 } : SMSMultipartMessages))],
           if decide (g.received_count + 1 ≥ g.total_size)
           then some ({ g with
              last_updated := now
              text_len := g.text_len + (f i).length
              text_parts := g.text_parts.set (i - 1) (some (f i))
              received_count := g.received_count + 1 } : SMSMultipartMessages).compile
           else none) := by
      have hlook : lookupGroup [(r, g)] r = some g := by simp [lookupGroup]
      have hdec : (⟨phone, some ⟨[⟨0, [r, N, i]⟩]⟩, f i⟩ :
          SMSIncomingMessage).decode_multipart_data = some (.ok ⟨r, N, i⟩) := rfl
      simp only [get_incoming_sms_message, hdec, hlook, Option.getD_some, hadd,
        insertGroup, if_pos rfl]
      split <;> rfl
    by_cases hrest : rest' = []
    · -- the part just added is the last one: the group reports full and yields
      subst hrest
      have hNdone : done.length + 1 = N := by simpa using hlength
      have hflag : decide (g.received_count + 1 ≥ g.total_size) = true := by
        rw [htot, hcount]
        simp
        omega
      refine ⟨{ g with
                 last_updated := now
                 text_len := g.text_len + (f i).length
                 text_parts := g.text_parts.set (i - 1) (some (f i))
                 received_count := g.received_count + 1 }, ?_⟩
      have hcompile := compile_of_full N phone f
        ({ g with
            last_updated := now
            text_len := g.text_len + (f i).length
            text_parts := g.text_parts.set (i - 1) (some (f i))
            received_count := g.received_count + 1 }) fm hfm hphone
        (by simp [hlen])
        (by
          intro j hj
          rw [List.get?_eq_getElem?]
          by_cases hji : j = i - 1
          · subst hji
            rw [List.getElem?_set_self (by omega)]
            have h1 : i - 1 + 1 = i := by omega
            rw [h1]
          · show (g.text_parts.set (i - 1) (some (f i)))[j]? = some (some (f (j + 1)))
            rw [List.getElem?_set_ne (by omega)]
            have h0 := hslots j hj
            rw [List.get?_eq_getElem?] at h0
            rw [h0]
            have hjdone : j + 1 ∈ done := by
              have hmemrange : j + 1 ∈ List.range' 1 N := by
                rw [List.mem_range'_1]
                omega
              have := hperm.mem_iff.mpr hmemrange
              simp at this
              rcases this with h | h
              · exact h
              · omega
            rw [if_pos hjdone])
      simp only [List.map_cons, List.map_nil, run_incoming, hget, hflag, if_true,
        hcompile]
      rfl
    · -- more parts to come: the flag is false and the invariant is re-established
      have hflag : decide (g.received_count + 1 ≥ g.total_size) = false := by
        rw [htot, hcount]
        simp
        have : rest'.length ≥ 1 := List.length_pos.mpr hrest
        omega
      obtain ⟨gfin, hgfin⟩ := ih (done ++ [i])
        ({ g with
            last_updated := now
            text_len := g.text_len + (f i).length
            text_parts := g.text_parts.set (i - 1) (some (f i))
            received_count := g.received_count + 1 }) fm
        (by
          have : (done ++ [i]) ++ rest' = done ++ i :: rest' := by simp
          rw [this]
          exact hperm)
        hrest htot
        (by simp [hcount])
        (by simp [hlen])
        (by
          intro j hj
          rw [List.get?_eq_getElem?]
          by_cases hji : j = i - 1
          · subst hji
            rw [List.getElem?_set_self (by omega)]
            have h1 : i - 1 + 1 = i := by omega
            rw [h1]
            have : i ∈ done ++ [i] := by simp
            rw [if_pos this]
          · show (g.text_parts.set (i - 1) (some (f i)))[j]? = _
            rw [List.getElem?_set_ne (by omega)]
            have h0 := hslots j hj
            rw [List.get?_eq_getElem?] at h0
            rw [h0]
            by_cases hjd : j + 1 ∈ done
            · rw [if_pos hjd, if_pos (by simp [hjd])]
            · rw [if_neg hjd, if_neg (by
                simp
                constructor
                · exact hjd
                · omega)])
        hfm hphone
      refine ⟨gfin, ?_⟩
      simp only [List.map_cons, run_incoming, hget, hflag, if_false] at hgfin ⊢
      rw [hgfin]
      rfl

/-- C2 amended: for any incoming concatenated SMS whose N parts (same multipart
reference, total N, any order of arrival) are fed to the reassembler, exactly
one message is yielded, with content equal to the index-ordered concatenation
of the part texts — but the group REMAINS in the reassembler map after the
message is yielded (it is only ever dropped by the scavenger pass), where the
original claim said it is removed. -/
theorem c2_reassembly_ordered_concat (now r N : Nat) (phone : String) (f : Nat → String)
    (order : List Nat) (hN : 0 < N) (hperm : order.Perm (List.range' 1 N)) :
    ∃ g : SMSMultipartMessages,
      run_incoming now
          (order.map (fun i => ⟨phone, some ⟨[⟨0, [r, N, i]⟩]⟩, f i⟩)) []
        = ([(r, g)],
           [Except.ok
             { message_id := none
               phone_number := phone
               message_content := ((List.range' 1 N).map f).foldl (· ++ ·) ""
               message_reference := none
               is_outgoing := false
               status := .received
               created_at := none
               completed_at := none }]) ∧
      lookupGroup [(r, g)] r = some g := by
  cases order with
  | nil =>
    exfalso
    have := hperm.length_eq
    simp [List.length_range'] at this
    omega
  | cons i0 order' =>
    have hmem : i0 ∈ List.range' 1 N := hperm.mem_iff.mp (by simp)
    have hi := List.mem_range'_1.mp hmem
    have hi1 : 1 ≤ i0 := hi.1
    have hiN : i0 ≤ N := by omega
    have hlength : order'.length + 1 = N := by
      have := hperm.length_eq
      simp [List.length_range'] at this
      omega
    have hslotget : (List.replicate N (none : Option String))[i0 - 1]? = some none := by
      rw [List.getElem?_replicate]
      rw [if_pos (by omega)]
    have hadd : (SMSMultipartMessages.with_capacity now N).add_message now
          ⟨phone, some ⟨[⟨0, [r, N, i0]⟩]⟩, f i0⟩ i0
        = ((⟨N, now, some ⟨phone, some ⟨[⟨0, [r, N, i0]⟩]⟩, f i0⟩, (f i0).length,
             (List.replicate N (none : Option String)).set (i0 - 1) (some (f i0)), 1⟩ :
             SMSMultipartMessages),
           decide (1 ≥ N)) := by
      simp [SMSMultipartMessages.add_message, SMSMultipartMessages.with_capacity, hslotget]
    have hget : get_incoming_sms_message now []
          ⟨phone, some ⟨[⟨0, [r, N, i0]⟩]⟩, f i0⟩
        = ([(r, (⟨N, now, some ⟨phone, some ⟨[⟨0, [r, N, i0]⟩]⟩, f i0⟩, (f i0).length,
              (List.replicate N (none : Option String)).set (i0 - 1) (some (f i0)), 1⟩ :
              SMSMultipartMessages))],
           if decide (1 ≥ N)
           then some (⟨N, now, some ⟨phone, some ⟨[⟨0, [r, N, i0]⟩]⟩, f i0⟩, (f i0).length,
              (List.replicate N (none : Option String)).set (i0 - 1) (some (f i0)), 1⟩ :
              SMSMultipartMessages).compile
           else none) := by
      have hdec : (⟨phone, some ⟨[⟨0, [r, N, i0]⟩]⟩, f i0⟩ :
          SMSIncomingMessage).decode_multipart_data = some (.ok ⟨r, N, i0⟩) := rfl
      have hlook : lookupGroup [] r = none := rfl
      simp only [get_incoming_sms_message, hdec, hlook, Option.getD_none, hadd,
        insertGroup]
      split <;> rfl
    by_cases hN1 : N = 1
    · subst hN1
      have hor : order' = [] := by
        cases order' with
        | nil => rfl
        | cons a b => simp at hlength
      subst hor
      have hi0 : i0 = 1 := by omega
      subst hi0
      refine ⟨⟨1, now, some ⟨phone, some ⟨[⟨0, [r, 1, 1]⟩]⟩, f 1⟩, (f 1).length,
        (List.replicate 1 (none : Option String)).set 0 (some (f 1)), 1⟩,
        ?_, by simp [lookupGroup]⟩
      have hcompile := compile_of_full 1 phone f
        (⟨1, now, some ⟨phone, some ⟨[⟨0, [r, 1, 1]⟩]⟩, f 1⟩, (f 1).length,
          (List.replicate 1 (none : Option String)).set 0 (some (f 1)), 1⟩ :
          SMSMultipartMessages)
        ⟨phone, some ⟨[⟨0, [r, 1, 1]⟩]⟩, f 1⟩ rfl rfl
        (by simp)
        (by
          intro j hj
          have hj0 : j = 0 := by omega
          subst hj0
          rfl)
      simp only [List.map_cons, List.map_nil, run_incoming, hget, hcompile]
      rfl
    · have hflag : decide (1 ≥ N) = false := by
        simp
        omega
      have hor : order' ≠ [] := by
        intro hcontra
        rw [hcontra] at hlength
        simp at hlength
        omega
      obtain ⟨gfin, hgfin⟩ := run_incoming_multipart_aux now r N phone f order' [i0]
        (⟨N, now, some ⟨phone, some ⟨[⟨0, [r, N, i0]⟩]⟩, f i0⟩, (f i0).length,
          (List.replicate N (none : Option String)).set (i0 - 1) (some (f i0)), 1⟩ :
          SMSMultipartMessages)
        ⟨phone, some ⟨[⟨0, [r, N, i0]⟩]⟩, f i0⟩
        (by simpa using hperm)
        hor rfl rfl
        (by simp)
        (by
          intro j hj
          rw [List.get?_eq_getElem?]
          by_cases hji : j = i0 - 1
          · subst hji
            rw [List.getElem?_set_self (by simp; omega)]
            have h1 : i0 - 1 + 1 = i0 := by omega
            rw [h1]
            rw [if_pos (by simp)]
          · show ((List.replicate N (none : Option String)).set
                (i0 - 1) (some (f i0)))[j]? = _
            rw [List.getElem?_set_ne (by omega)]
            rw [List.getElem?_replicate, if_pos hj]
            rw [if_neg (by simp; omega)])
        rfl rfl
      refine ⟨gfin, ?_, by simp [lookupGroup]⟩
      simp only [List.map_cons, run_incoming, hget, hflag, if_false] at hgfin ⊢
      rw [hgfin]
      rfl

/-- C2 witness: the amended statement for a two-part message ("hello ", then
"world") delivered out of order under reference 7. -/
theorem c2_reassembly_witness :
    (0 < 2 ∧ ([2, 1] : List Nat).Perm (List.range' 1 2)) ∧
    (∃ g : SMSMultipartMessages,
      run_incoming 100
          (([2, 1] : List Nat).map (fun i =>
            ⟨"+447700900123", some ⟨[⟨0, [7, 2, i]⟩]⟩,
              (fun k => if k = 1 then "hello " else "world") i⟩)) []
        = ([(7, g)],
           [Except.ok
             { message_id := none
               phone_number := "+447700900123"
               message_content := ((List.range' 1 2).map
                 (fun k => if k = 1 then "hello " else "world")).foldl (· ++ ·) ""
               message_reference := none
               is_outgoing := false
               status := .received
               created_at := none
               completed_at := none }]) ∧
      lookupGroup [(7, g)] 7 = some g) :=
  ⟨⟨by decide, by decide⟩,
    c2_reassembly_ordered_concat 100 7 2 "+447700900123"
      (fun k => if k = 1 then "hello " else "world") [2, 1] (by decide) (by decide)⟩

theorem tokenizeFramer_cons (cur : List Nat) (c : Nat) (rest : List Nat) :
    tokenizeFramer cur (c :: rest)
      = if isNewlineByte c then
          (((try_create_event cur LineEvent.line).elim [] (fun e => [e]))
            ++ (tokenizeFramer [] rest).1, (tokenizeFramer [] rest).2)
        else if c == 62 then
          if cur.isEmpty then
            (((try_create_event [62] LineEvent.prompt).elim [] (fun e => [e]))
              ++ (tokenizeFramer [] rest).1, (tokenizeFramer [] rest).2)
          else tokenizeFramer (cur ++ [c]) rest
        else tokenizeFramer (cur ++ [c]) rest := rfl

theorem dropWhile_eq_drop_length_takeWhile (p : Nat → Bool) (l : List Nat) :
    l.dropWhile p = l.drop (l.takeWhile p).length := by
  induction l with
  | nil => rfl
  | cons c tl ih =>
    by_cases hc : p c
    · simp [List.dropWhile_cons, List.takeWhile_cons, hc, ih]
    · simp [List.dropWhile_cons, List.takeWhile_cons, hc]

theorem tokenizeFramer_nil_dropWhile (l : List Nat) :
    tokenizeFramer [] l = tokenizeFramer [] (l.dropWhile isNewlineByte) := by
  induction l with
  | nil => rfl
  | cons c tl ih =>
    by_cases hc : isNewlineByte c
    · rw [List.dropWhile_cons, if_pos hc, ← ih, tokenizeFramer_cons, if_pos hc]
      simp [try_create_event]
    · rw [List.dropWhile_cons, if_neg hc]

theorem scanEvents_eq_tokenizeFramer (b : List Nat) (start i : Nat) (acc : List LineEvent) :
    start ≤ i → i ≤ b.length →
    (∀ k, start ≤ k → k < i → isNewlineByte (b.getD k 0) = false) →
    (scanEvents b start i acc).1
        = acc ++ (tokenizeFramer ((b.drop start).take (i - start)) (b.drop i)).1 ∧
    b.drop (scanEvents b start i acc).2
        = (tokenizeFramer ((b.drop start).take (i - start)) (b.drop i)).2 := by
  induction start, i, acc using scanEvents.induct b with
  | case1 start i acc hlen c hnl acc1 j IH =>
    intro h1 h2 h3
    have hcount : countNewlines (b.drop (i + 1)) ≤ b.length - (i + 1) := by
      have hs := (List.takeWhile_sublist (l := b.drop (i + 1)) isNewlineByte).length_le
      simpa [countNewlines, List.length_drop] using hs
    have hj2 : j ≤ b.length := by omega
    obtain ⟨ih1, ih2⟩ := IH (Nat.le_refl j) hj2 (by intro k hk1 hk2; omega)
    have hgi : b.getD i 0 = getElem b i hlen := List.getD_eq_getElem b 0 hlen
    have hnlb : isNewlineByte (getElem b i hlen) = true := by rw [← hgi]; exact hnl
    have hscan : scanEvents b start i acc = scanEvents b j j acc1 := by
      rw [scanEvents, dif_pos hlen, if_pos hnl]
      rfl
    have hskip : tokenizeFramer [] (b.drop (i + 1)) = tokenizeFramer [] (b.drop j) := by
      rw [tokenizeFramer_nil_dropWhile (b.drop (i + 1)),
        dropWhile_eq_drop_length_takeWhile, List.drop_drop]
      rfl
    have htok : tokenizeFramer ((b.drop start).take (i - start)) (b.drop i)
        = (((try_create_event ((b.drop start).take (i - start)) LineEvent.line).elim []
              (fun e => [e]))
            ++ (tokenizeFramer [] (b.drop j)).1,
           (tokenizeFramer [] (b.drop j)).2) := by
      conv =>
        lhs
        rw [List.drop_eq_getElem_cons hlen]
      rw [tokenizeFramer_cons, if_pos hnlb, hskip]
    have hacc : acc1 = acc ++ ((try_create_event ((b.drop start).take (i - start))
        LineEvent.line).elim [] (fun e => [e])) := by
      by_cases hsi : start < i
      · simp only [acc1, dif_pos hsi]
        cases htc : try_create_event ((b.drop start).take (i - start)) LineEvent.line <;>
          simp [htc]
      · have hseq : start = i := by omega
        have hcur : (b.drop start).take (i - start) = [] := by
          rw [hseq]
          simp
        simp only [acc1, dif_neg hsi, hcur]
        simp [try_create_event]
    have hcurj : (b.drop j).take (j - j) = [] := by simp
    rw [hcurj] at ih1 ih2
    rw [hscan, htok]
    constructor
    · rw [ih1, hacc]
      simp
    · rw [ih2]
  | case2 start i acc hlen c hnnl hgt is_prompt hip acc1 IH =>
    intro h1 h2 h3
    have hstart : start = i := by
      by_contra hne
      have hlt : start < i := by omega
      have hprev : isNewlineByte (b.getD (i - 1) 0) = false :=
        h3 (i - 1) (by omega) (by omega)
      have hne2 : (start == i) = false := by simp; omega
      have hfalse : is_prompt = false := by
        simp only [is_prompt]
        rw [hne2, hprev]
        simp
      rw [hfalse] at hip
      exact absurd hip (by simp)
    subst hstart
    have hgi : b.getD start 0 = getElem b start hlen := List.getD_eq_getElem b 0 hlen
    have hb62 : getElem b start hlen = 62 := by
      have hq := hgt
      simp only [beq_iff_eq] at hq
      rw [← hgi]
      exact hq
    obtain ⟨ih1, ih2⟩ := IH (Nat.le_refl (start + 1)) (by omega) (by intro k hk1 hk2; omega)
    have hscan : scanEvents b start start acc
        = scanEvents b (start + 1) (start + 1) acc1 := by
      rw [scanEvents, dif_pos hlen, if_neg hnnl, if_pos hgt, if_pos hip]
    have hcur : (b.drop start).take (start - start) = [] := by simp
    have hslice : (b.drop start).take (start + 1 - start) = [62] := by
      have hs1 : start + 1 - start = 1 := by omega
      rw [hs1, List.drop_eq_getElem_cons hlen, hb62]
      rfl
    have hacc : acc1 = acc ++ [LineEvent.prompt [62]] := by
      simp only [acc1, hslice]
      rfl
    have htok : tokenizeFramer ((b.drop start).take (start - start)) (b.drop start)
        = ([LineEvent.prompt [62]] ++ (tokenizeFramer [] (b.drop (start + 1))).1,
           (tokenizeFramer [] (b.drop (start + 1))).2) := by
      rw [hcur, List.drop_eq_getElem_cons hlen, hb62, tokenizeFramer_cons]
      rw [if_neg (by decide), if_pos (by rfl), if_pos (by rfl)]
      rfl
    have hcur1 : (b.drop (start + 1)).take (start + 1 - (start + 1)) = [] := by simp
    rw [hcur1] at ih1 ih2
    rw [hscan, htok]
    constructor
    · rw [ih1, hacc]
      simp
    · rw [ih2]
  | case3 start i acc hlen c hnnl hgt is_prompt hnip IH =>
    intro h1 h2 h3
    have hstart : start < i := by
      rcases Nat.lt_or_ge start i with h | h
      · exact h
      · exfalso
        have hseq : start = i := by omega
        apply hnip
        simp only [is_prompt, hseq]
        simp
    have hgi : b.getD i 0 = getElem b i hlen := List.getD_eq_getElem b 0 hlen
    have hb62 : getElem b i hlen = 62 := by
      have hq := hgt
      simp only [beq_iff_eq] at hq
      rw [← hgi]
      exact hq
    obtain ⟨ih1, ih2⟩ := IH (by omega) (by omega) (by
      intro k hk1 hk2
      by_cases hki : k < i
      · exact h3 k hk1 hki
      · have hkeq : k = i := by omega
        rw [hkeq, hgi, hb62]
        rfl)
    have hscan : scanEvents b start i acc = scanEvents b start (i + 1) acc := by
      rw [scanEvents, dif_pos hlen, if_neg hnnl, if_pos hgt, if_neg hnip]
    have hslice : (b.drop start).take (i + 1 - start)
        = (b.drop start).take (i - start) ++ [62] := by
      have hs1 : i + 1 - start = (i - start) + 1 := by omega
      rw [hs1, List.take_succ]
      have hg2 : (b.drop start)[i - start]? = some 62 := by
        rw [List.getElem?_drop]
        have hs2 : start + (i - start) = i := by omega
        rw [hs2, List.getElem?_eq_getElem hlen, hb62]
      rw [hg2]
      rfl
    have hne : ((b.drop start).take (i - start)).isEmpty = false := by
      have hlcur : ((b.drop start).take (i - start)).length = i - start := by
        simp [List.length_take, List.length_drop]
        omega
      have hnot : ¬ (((b.drop start).take (i - start)).isEmpty = true) := by
        rw [List.isEmpty_iff_length_eq_zero, hlcur]
        omega
      exact Bool.not_eq_true _ |>.mp hnot
    have htok : tokenizeFramer ((b.drop start).take (i - start)) (b.drop i)
        = tokenizeFramer ((b.drop start).take (i - start) ++ [62]) (b.drop (i + 1)) := by
      conv =>
        lhs
        rw [List.drop_eq_getElem_cons hlen]
      rw [hb62, tokenizeFramer_cons]
      rw [if_neg (by decide), if_pos (by rfl), if_neg (by rw [hne]; simp)]
    rw [hslice] at ih1 ih2
    rw [hscan, htok]
    exact ⟨ih1, ih2⟩
  | case4 start i acc hlen c hnnl hngt IH =>
    intro h1 h2 h3
    have hgi : b.getD i 0 = getElem b i hlen := List.getD_eq_getElem b 0 hlen
    have hnlb : isNewlineByte (getElem b i hlen) = false := by
      rw [← hgi]
      exact Bool.not_eq_true _ |>.mp hnnl
    have hgtb : ((getElem b i hlen) == 62) = false := by
      rw [← hgi]
      exact Bool.not_eq_true _ |>.mp hngt
    obtain ⟨ih1, ih2⟩ := IH (by omega) (by omega) (by
      intro k hk1 hk2
      by_cases hki : k < i
      · exact h3 k hk1 hki
      · have hkeq : k = i := by omega
        rw [hkeq, hgi]
        exact hnlb)
    have hscan : scanEvents b start i acc = scanEvents b start (i + 1) acc := by
      rw [scanEvents, dif_pos hlen, if_neg hnnl, if_neg hngt]
    have hslice : (b.drop start).take (i + 1 - start)
        = (b.drop start).take (i - start) ++ [getElem b i hlen] := by
      have hs1 : i + 1 - start = (i - start) + 1 := by omega
      rw [hs1, List.take_succ]
      have hg2 : (b.drop start)[i - start]? = some (getElem b i hlen) := by
        rw [List.getElem?_drop]
        have hs2 : start + (i - start) = i := by omega
        rw [hs2, List.getElem?_eq_getElem hlen]
      rw [hg2]
      rfl
    have htok : tokenizeFramer ((b.drop start).take (i - start)) (b.drop i)
        = tokenizeFramer ((b.drop start).take (i - start) ++ [getElem b i hlen])
            (b.drop (i + 1)) := by
      conv =>
        lhs
        rw [List.drop_eq_getElem_cons hlen]
      rw [tokenizeFramer_cons, if_neg (by rw [hnlb]; simp), if_neg (by rw [hgtb]; simp)]
    rw [hslice] at ih1 ih2
    rw [hscan, htok]
    exact ⟨ih1, ih2⟩
  | case5 start i acc hlen =>
    intro h1 h2 h3
    have hieq : i = b.length := by omega
    have hscan : scanEvents b start i acc = (acc, start) := by
      rw [scanEvents, dif_neg hlen]
    have hdropi : b.drop i = [] := by
      rw [hieq]
      exact List.drop_length b
    have hcur : (b.drop start).take (i - start) = b.drop start := by
      have hl : i - start = (b.drop start).length := by
        simp [List.length_drop]
        omega
      rw [hl]
      exact List.take_length _
    rw [hscan, hdropi, hcur]
    constructor
    · show acc = acc ++ (tokenizeFramer (b.drop start) []).1
      simp [tokenizeFramer]
    · show b.drop start = (tokenizeFramer (b.drop start) []).2
      simp [tokenizeFramer]

/-- C8 amended: over every framer state and input chunk, the events of
`process_data` are exactly those of the reference tokenizer `tokenizeFramer`
run on the capped buffer with an empty pending token, and the retained buffer
is the tokenizer's leftover token.  In `tokenizeFramer` a `>` byte is a
`Prompt` exactly when the pending token is empty — at the start of the buffer,
right after a `\r`/`\n` byte, or right after a previously emitted `Prompt` —
and ordinary text inside the pending line otherwise. -/
theorem c8_prompt_classification (lb : LineBuffer) (data : List Nat) :
    (lb.process_data data).2 = (tokenizeFramer [] (lb.capped_buffer data)).1 ∧
    (lb.process_data data).1.buffer = (tokenizeFramer [] (lb.capped_buffer data)).2 := by
  obtain ⟨h1, h2⟩ := scanEvents_eq_tokenizeFramer (lb.capped_buffer data) 0 0 []
    (Nat.le_refl 0) (Nat.zero_le _) (by intro k hk1 hk2; omega)
  simp only [List.drop_zero, Nat.sub_zero, List.take_zero, List.nil_append] at h1 h2
  exact ⟨h1, h2⟩

/-- C8 counterexample: a `>` immediately after a previous `>` with no
intervening newline.  The code emits TWO `Prompt` events for the input `">>"`,
while the claim's classification (`tokenizeClaim`: a prompt only at the very
start of the buffer or right after `\r`/`\n`) predicts one `Prompt` with the
second `>` kept as pending ordinary text. -/
theorem c8_prompt_after_prompt :
    (LineBuffer.mk [] 4096).process_data [62, 62]
        = (LineBuffer.mk [] 4096, [.prompt [62], .prompt [62]]) ∧
    tokenizeClaim none [] [62, 62] = ([.prompt [62]], [62]) ∧
    ¬ (((LineBuffer.mk [] 4096).process_data [62, 62]).2
          = (tokenizeClaim none [] [62, 62]).1 ∧
       ((LineBuffer.mk [] 4096).process_data [62, 62]).1.buffer
          = (tokenizeClaim none [] [62, 62]).2) := by
  have h1 : (LineBuffer.mk [] 4096).process_data [62, 62]
      = (LineBuffer.mk [] 4096, [.prompt [62], .prompt [62]]) := by
    simp [LineBuffer.process_data, LineBuffer.capped_buffer, scanEvents, countNewlines,
      try_create_event, isNewlineByte, isAsciiWhitespaceByte, trimBytes,
      isTrimWhitespaceByte]
  refine ⟨h1, by decide, ?_⟩
  rw [h1]
  decide
